import Mathlib

/-!
# Verification of the Corvus agent orchestration layer

Shallow embedding of the chat session manager (`ChatSessionManager`), the
tool dispatcher (`executeTool`), and the tool-result truncation policy
(`truncateToolResult`) of the Corvus repository, together with proofs of
the specification's claims about them.

Embedding conventions:
* JavaScript values produced by `JSON.parse` are modelled by `JsValue`.
  Numbers are modelled as `Int`: the code under verification never does
  arithmetic on parsed numbers (it only moves, compares-to-cap, counts and
  reprints them), and `JSON.stringify` prints integers exactly as
  JavaScript does.
* A tool-result string is represented together with its parse status
  (`ToolResult`): the string and the `JsValue` it parses to, or the raw
  text alone when `JSON.parse` throws.  `JSON.stringify` output always
  re-parses to the value it was produced from, and a string truncated to
  5000 characters plus the literal marker `...[truncated]` is never
  valid JSON (the marker contains no closing quote and the bare word
  `truncated` is not a JSON token), so the representation is stable
  under the re-parsing each branch implies.  JavaScript property access
  on `null` throws a `TypeError`; inside `truncateToolResult` such a
  throw escapes to the function's `catch`, which falls back to
  length-capping the original, untransformed string.
* Session costs are modelled by `ℚ` (the code only adds and compares
  them; no float-specific behaviour is involved in any claim), and token
  counts by `Nat`.
* Promises/async are erased: every provider call is modelled by a pure
  function of the message history.  The tool-catalog argument passed to
  `chat` is the constant `getCorvusTools()` at every call site, and the
  catalog passed to `streamChat` is the constant `[]`, so both are
  absorbed into the client's function fields.
* The eight domain-tool handlers perform network I/O; they are external
  collaborators from the dispatcher's point of view and are modelled as
  an explicit environment (`ToolEnv`) of functions that either return a
  result string (by parse status) or throw an exception message.
-/

namespace Corvus

/-- JavaScript/JSON values, as produced by `JSON.parse`. -/
inductive JsValue where
  | vNull : JsValue
  | vBool : Bool → JsValue
  | vNum : Int → JsValue
  | vStr : String → JsValue
  | vArr : List JsValue → JsValue
  | vObj : List (String × JsValue) → JsValue

mutual

/-- Boolean equality on `JsValue` (for the decidable-equality instance). -/
def beqJs : JsValue → JsValue → Bool
  | .vNull, .vNull => true
  | .vBool a, .vBool b => a == b
  | .vNum a, .vNum b => a == b
  | .vStr a, .vStr b => a == b
  | .vArr xs, .vArr ys => beqJsArr xs ys
  | .vObj fs, .vObj gs => beqJsObj fs gs
  | _, _ => false

/-- Boolean equality on lists of `JsValue`. -/
def beqJsArr : List JsValue → List JsValue → Bool
  | [], [] => true
  | x :: xs, y :: ys => beqJs x y && beqJsArr xs ys
  | _, _ => false

/-- Boolean equality on field lists. -/
def beqJsObj : List (String × JsValue) → List (String × JsValue) → Bool
  | [], [] => true
  | (k, v) :: fs, (l, w) :: gs => k == l && beqJs v w && beqJsObj fs gs
  | _, _ => false

end

mutual

theorem beqJs_iff : ∀ a b : JsValue, beqJs a b = true ↔ a = b
  | .vNull, .vNull => by simp [beqJs]
  | .vNull, .vBool _ => by simp [beqJs]
  | .vNull, .vNum _ => by simp [beqJs]
  | .vNull, .vStr _ => by simp [beqJs]
  | .vNull, .vArr _ => by simp [beqJs]
  | .vNull, .vObj _ => by simp [beqJs]
  | .vBool _, .vNull => by simp [beqJs]
  | .vBool _, .vBool _ => by simp [beqJs]
  | .vBool _, .vNum _ => by simp [beqJs]
  | .vBool _, .vStr _ => by simp [beqJs]
  | .vBool _, .vArr _ => by simp [beqJs]
  | .vBool _, .vObj _ => by simp [beqJs]
  | .vNum _, .vNull => by simp [beqJs]
  | .vNum _, .vBool _ => by simp [beqJs]
  | .vNum _, .vNum _ => by simp [beqJs]
  | .vNum _, .vStr _ => by simp [beqJs]
  | .vNum _, .vArr _ => by simp [beqJs]
  | .vNum _, .vObj _ => by simp [beqJs]
  | .vStr _, .vNull => by simp [beqJs]
  | .vStr _, .vBool _ => by simp [beqJs]
  | .vStr _, .vNum _ => by simp [beqJs]
  | .vStr _, .vStr _ => by simp [beqJs]
  | .vStr _, .vArr _ => by simp [beqJs]
  | .vStr _, .vObj _ => by simp [beqJs]
  | .vArr _, .vNull => by simp [beqJs]
  | .vArr _, .vBool _ => by simp [beqJs]
  | .vArr _, .vNum _ => by simp [beqJs]
  | .vArr _, .vStr _ => by simp [beqJs]
  | .vArr xs, .vArr ys => by simp [beqJs, beqJsArr_iff xs ys]
  | .vArr _, .vObj _ => by simp [beqJs]
  | .vObj _, .vNull => by simp [beqJs]
  | .vObj _, .vBool _ => by simp [beqJs]
  | .vObj _, .vNum _ => by simp [beqJs]
  | .vObj _, .vStr _ => by simp [beqJs]
  | .vObj _, .vArr _ => by simp [beqJs]
  | .vObj fs, .vObj gs => by simp [beqJs, beqJsObj_iff fs gs]

theorem beqJsArr_iff : ∀ xs ys : List JsValue, beqJsArr xs ys = true ↔ xs = ys
  | [], [] => by simp [beqJsArr]
  | [], _ :: _ => by simp [beqJsArr]
  | _ :: _, [] => by simp [beqJsArr]
  | x :: xs, y :: ys => by
    simp [beqJsArr, beqJs_iff x y, beqJsArr_iff xs ys]

theorem beqJsObj_iff :
    ∀ fs gs : List (String × JsValue), beqJsObj fs gs = true ↔ fs = gs
  | [], [] => by simp [beqJsObj]
  | [], _ :: _ => by simp [beqJsObj]
  | _ :: _, [] => by simp [beqJsObj]
  | (k, v) :: fs, (l, w) :: gs => by
    simp [beqJsObj, beqJs_iff v w, beqJsObj_iff fs gs, and_assoc]

end

instance : DecidableEq JsValue := fun a b =>
  decidable_of_iff (beqJs a b = true) (beqJs_iff a b)

instance {ε α : Type} [DecidableEq ε] [DecidableEq α] :
    DecidableEq (Except ε α) := fun a b =>
  match a, b with
  | .ok x, .ok y =>
    if h : x = y then isTrue (by rw [h]) else isFalse (by simp [h])
  | .error x, .error y =>
    if h : x = y then isTrue (by rw [h]) else isFalse (by simp [h])
  | .ok _, .error _ => isFalse (by simp)
  | .error _, .ok _ => isFalse (by simp)

/-- JavaScript truthiness of a value (`undefined`/`NaN` do not occur as
object field values in this model). -/
def truthy : JsValue → Bool
  | .vNull => false
  | .vBool b => b
  | .vNum n => n ≠ 0
  | .vStr s => s ≠ ""
  | .vArr _ => true
  | .vObj _ => true

/-- Association-list field lookup: `obj[k]`, `none` for a missing key
(JS `undefined`).  `JSON.parse` never produces duplicate keys. -/
def getF (fs : List (String × JsValue)) (k : String) : Option JsValue :=
  match fs with
  | [] => none
  | (k', v) :: rest => if k' = k then some v else getF rest k

/-- JS property assignment `obj[k] = v`: overwrite in place, or append. -/
def setF (fs : List (String × JsValue)) (k : String) (v : JsValue) :
    List (String × JsValue) :=
  match fs with
  | [] => [(k, v)]
  | (k', v') :: rest =>
    if k' = k then (k, v) :: rest else (k', v') :: setF rest k v

/-- JS `delete obj[k]`. -/
def delF (fs : List (String × JsValue)) (k : String) :
    List (String × JsValue) :=
  fs.filter (fun kv => kv.1 ≠ k)

/-- Property access on an arbitrary value, `v[k]`.  Access on an object
looks the key up; access on a number, string, boolean or array yields
`undefined` (`ok none`); but access on `null` throws a `TypeError`
(`error`), as JavaScript does — `JSON.parse` output never contains
`undefined`, so `null` is the only thrower. -/
def getJs : JsValue → String → Except Unit (Option JsValue)
  | .vNull, _ => .error ()
  | .vObj fs, k => .ok (getF fs k)
  | _, _ => .ok none

/-- JS `x || 0` applied to a possibly-`undefined` value. -/
def orZero : Option JsValue → JsValue
  | none => .vNum 0
  | some v => if truthy v then v else .vNum 0

/-- A tool-result string together with its `JSON.parse` status:
`json s j` when the string `s` parses to the value `j`, `text s` when
parsing `s` throws. -/
inductive ToolResult where
  | json : String → JsValue → ToolResult
  | text : String → ToolResult
deriving DecidableEq

/-! ## The truncation policy (`ChatSessionManager.truncateToolResult`) -/

/-- Steps 1/2 of the truncation policy: if `fs[key]` holds a non-empty
array (historical data), replace it by the last element's
`totalLiquidityUSD` value, defaulting to `0`
(`latest.totalLiquidityUSD || 0`).  Reading `totalLiquidityUSD` off a
`null` last element throws (`error`), aborting the whole transform. -/
def collapseTvl (fs : List (String × JsValue)) (key : String) :
    Except Unit (List (String × JsValue)) :=
  match getF fs key with
  | some (.vArr xs) =>
    match xs.getLast? with
    | some latest =>
      match getJs latest "totalLiquidityUSD" with
      | .error () => .error ()
      | .ok o => .ok (setF fs key (orZero o))
    | none => .ok fs
  | _ => .ok fs

/-- Step 3: `if (data.chain_breakdown) delete data.chain_breakdown`. -/
def dropChainBreakdown (fs : List (String × JsValue)) :
    List (String × JsValue) :=
  match getF fs "chain_breakdown" with
  | some v => if truthy v then delF fs "chain_breakdown" else fs
  | none => fs

/-- Steps 4/5: cap an array field at `cap` items and set the `_truncated`
annotation.  The count after "of" is read from the field *after* the
slice, exactly as the source does (`data.tokens.length` is read after
`data.tokens` has been reassigned to the sliced array). -/
def capArray (fs : List (String × JsValue)) (key : String) (cap : Nat)
    (noun : String) : List (String × JsValue) :=
  match getF fs key with
  | some (.vArr xs) =>
    if xs.length > cap then
      setF (setF fs key (.vArr (xs.take cap))) "_truncated"
        (.vStr ("Showing first " ++ toString cap ++ " of " ++
          toString (xs.take cap).length ++ " " ++ noun))
    else fs
  | _ => fs

/-- The five field transformations of `truncateToolResult`, in source
order; `error` is a `TypeError` thrown mid-transform (only the two
`tvl` collapses can throw — the `chain_breakdown`, `tokens` and
`transactions` steps only touch the object itself). -/
def truncFields (fs : List (String × JsValue)) :
    Except Unit (List (String × JsValue)) :=
  match collapseTvl fs "tvl_total" with
  | .error () => .error ()
  | .ok fs1 =>
    match collapseTvl fs1 "tvl_solana" with
    | .error () => .error ()
    | .ok fs2 =>
      .ok (capArray (capArray (dropChainBreakdown fs2) "tokens" 10 "tokens")
        "transactions" 5 "transactions")

/-- The structured branch of `truncateToolResult`, on a parsed value.
A parsed top-level `null` throws at the very first `data.tvl_total`
read; property reads on other non-objects yield `undefined`, so every
condition is false and the value is re-serialized unchanged. -/
def truncateJson : JsValue → Except Unit JsValue
  | .vObj fs =>
    match truncFields fs with
    | .error () => .error ()
    | .ok gs => .ok (.vObj gs)
  | .vNull => .error ()
  | j => .ok j

/-- The plain-text branch of `truncateToolResult` (the `catch`):
hard-truncate to 5000 characters (`result.slice(0, 5000)`, written on
the character list) and append the marker. -/
def truncateText (s : String) : String :=
  if s.length > 5000 then String.mk (s.data.take 5000) ++ "...[truncated]"
  else s

/-! ## `JSON.stringify` -/

/-- Lowercase hexadecimal digit. -/
def hexDigit (n : Nat) : Char :=
  if n < 10 then Char.ofNat (48 + n) else Char.ofNat (87 + n)

/-- `JSON.stringify` escaping of one character of a string literal. -/
def escapeChar (c : Char) : String :=
  if c = '"' then "\\\""
  else if c = '\\' then "\\\\"
  else if c = '\n' then "\\n"
  else if c = '\r' then "\\r"
  else if c = '\t' then "\\t"
  else if c.toNat = 8 then "\\b"
  else if c.toNat = 12 then "\\f"
  else if c.toNat < 32 then
    "\\u00" ++ String.singleton (hexDigit (c.toNat / 16)) ++
      String.singleton (hexDigit (c.toNat % 16))
  else String.singleton c

/-- `JSON.stringify` escaping of a string's characters. -/
def escapeString (s : String) : String :=
  String.join (s.data.map escapeChar)

mutual

/-- `JSON.stringify` (no indentation, as called by the dispatcher). -/
def jsStringify : JsValue → String
  | .vNull => "null"
  | .vBool true => "true"
  | .vBool false => "false"
  | .vNum n => toString n
  | .vStr s => "\"" ++ escapeString s ++ "\""
  | .vArr xs => "[" ++ jsStringifyArr xs ++ "]"
  | .vObj fs => "\x7b" ++ jsStringifyObj fs ++ "\x7d"

/-- Comma-separated stringification of array elements. -/
def jsStringifyArr : List JsValue → String
  | [] => ""
  | [x] => jsStringify x
  | x :: y :: rest => jsStringify x ++ "," ++ jsStringifyArr (y :: rest)

/-- Comma-separated stringification of object fields. -/
def jsStringifyObj : List (String × JsValue) → String
  | [] => ""
  | [(k, v)] => "\"" ++ escapeString k ++ "\":" ++ jsStringify v
  | (k, v) :: g :: rest =>
    "\"" ++ escapeString k ++ "\":" ++ jsStringify v ++ "," ++
      jsStringifyObj (g :: rest)

end

/-- `ChatSessionManager.truncateToolResult`, on the string-plus-parse
representation.  The `try` branch parses, transforms and re-serializes
(`JSON.stringify(data)` re-parses to the transformed value); any
exception — the parse failure of the `text` case, or a `TypeError`
thrown inside the transform — lands in the `catch`, which length-caps
the *original* string: unchanged (still parsing to the original value)
when at most 5000 characters, else cut and marked (the marked cut never
parses, see the module docstring). -/
def truncateToolResult : ToolResult → ToolResult
  | .json s j =>
    match truncateJson j with
    | .ok j' => .json (jsStringify j') j'
    | .error () =>
      if s.length > 5000 then
        .text (String.mk (s.data.take 5000) ++ "...[truncated]")
      else .json s j
  | .text s => .text (truncateText s)

/-- The string a tool-result stands for — what the dispatcher actually
returns to the conversation loop. -/
def printToolResult : ToolResult → String
  | .json s _ => s
  | .text s => s

/-! ## The tool dispatcher (`ChatSessionManager.executeTool`) -/

/-- A provider-requested tool invocation. -/
structure ToolCall where
  id : String
  name : String
  arguments : List (String × JsValue)
deriving DecidableEq

/-- The eight external tool collaborators, as an explicit environment.
Each either returns a result string (represented by parse status) or
throws an exception with the given message (`Except.error`). -/
structure ToolEnv where
  getSOLBalanceTool : Option JsValue → Except String ToolResult
  getTokenBalancesTool : Option JsValue → Except String ToolResult
  getTokenPriceTool : Option JsValue → Except String ToolResult
  getRecentTransactionsTool :
    Option JsValue → Option JsValue → Except String ToolResult
  getProtocolTVLTool : Option JsValue → Except String ToolResult
  getTopProtocolsTool :
    Option JsValue → Option JsValue → Except String ToolResult
  analyzeWalletDeFiPositionsTool : Option JsValue → Except String ToolResult
  sendTelegramAlertTool :
    Option JsValue → Option JsValue → Option JsValue → Except String ToolResult

/-- The `switch (name)` of `executeTool`: `some` applies the matching
collaborator to its declared arguments, `none` is the `default` branch. -/
def dispatch (env : ToolEnv) (tc : ToolCall) :
    Option (Except String ToolResult) :=
  let arg (k : String) : Option JsValue := getF tc.arguments k
  if tc.name = "get_sol_balance" then
    some (env.getSOLBalanceTool (arg "wallet"))
  else if tc.name = "get_token_balances" then
    some (env.getTokenBalancesTool (arg "wallet"))
  else if tc.name = "get_token_price" then
    some (env.getTokenPriceTool (arg "tokens"))
  else if tc.name = "get_recent_transactions" then
    some (env.getRecentTransactionsTool (arg "wallet") (arg "limit"))
  else if tc.name = "get_protocol_tvl" then
    some (env.getProtocolTVLTool (arg "protocol"))
  else if tc.name = "get_top_solana_protocols" then
    some (env.getTopProtocolsTool (arg "limit") (arg "category"))
  else if tc.name = "analyze_wallet_defi_positions" then
    some (env.analyzeWalletDeFiPositionsTool (arg "wallet"))
  else if tc.name = "send_telegram_alert" then
    some (env.sendTelegramAlertTool
      (arg "chat_id") (arg "message") (arg "severity"))
  else none

/-- The eight tool names of the dispatcher's `switch`. -/
def knownToolNames : List String :=
  ["get_sol_balance", "get_token_balances", "get_token_price",
   "get_recent_transactions", "get_protocol_tvl",
   "get_top_solana_protocols", "analyze_wallet_defi_positions",
   "send_telegram_alert"]

/-- `JSON.stringify({ error: msg })`, the dispatcher's error payload. -/
def errorPayload (msg : String) : String :=
  jsStringify (.vObj [("error", .vStr msg)])

/-- `ChatSessionManager.executeTool`: the `default` branch of the
`switch` returns the unknown-tool payload, a collaborator exception is
caught and converted to the failure payload, and a successful result is
truncated before being returned. -/
def executeTool (env : ToolEnv) (tc : ToolCall) : String :=
  match dispatch env tc with
  | none => errorPayload ("Unknown tool: " ++ tc.name)
  | some (.error m) => errorPayload ("Tool execution failed: " ++ m)
  | some (.ok r) => printToolResult (truncateToolResult r)

/-! ## Session data model -/

/-- Message roles. -/
inductive Role where
  | system : Role
  | user : Role
  | assistant : Role
deriving DecidableEq

/-- A conversation message. -/
structure Message where
  role : Role
  content : String
deriving DecidableEq

/-- `finishReason` of an `LLMResponse`. -/
inductive FinishReason where
  | stop : FinishReason
  | tool_use : FinishReason
  | length : FinishReason
  | error : FinishReason
deriving DecidableEq

/-- Reported token usage. -/
structure Usage where
  inputTokens : Nat
  outputTokens : Nat
  totalTokens : Nat
deriving DecidableEq

/-- A provider response.  The optional `content` field is modelled as a
plain string with `""` for `undefined`: every read in the session manager
is through `response.content || …`, which identifies the two. -/
structure LLMResponse where
  content : String
  toolCalls : Option (List ToolCall)
  finishReason : FinishReason
  usage : Option Usage
deriving DecidableEq

/-- A deterministic provider client (`ILLMClient`).  The constant
tool-catalog arguments of `chat`/`streamChat` are absorbed into the
function fields (see the module docstring). -/
structure Client where
  chat : List Message → LLMResponse
  streamChat : Option (List Message → List String)
  supportsStreaming : Bool
  estimateCost : List Message → ℚ

/-- Session configuration after constructor defaulting. -/
structure SessionConfig where
  maxTurns : Nat
  maxCostPerSession : ℚ
  systemPrompt : String

/-- `ChatSession` (the wall-clock `startTime` field, untouched by every
claim, is omitted). -/
structure ChatSession where
  messages : List Message
  turnCount : Nat
  totalCost : ℚ
deriving DecidableEq

/-- The admission errors thrown by `sendMessage`/`sendMessageStream`,
identified by kind and the numbers interpolated into their text. -/
inductive SessionError where
  | turnLimit : Nat → SessionError
  | costLimit : ℚ → ℚ → SessionError
deriving DecidableEq

/-- The session created by the `ChatSessionManager` constructor, and the
result of `clearHistory()`. -/
def freshSession (cfg : SessionConfig) : ChatSession :=
  { messages := [{ role := .system, content := cfg.systemPrompt }]
    turnCount := 0
    totalCost := 0 }

/-- `ChatSessionManager.clearHistory`. -/
def clearHistory (cfg : SessionConfig) : ChatSession :=
  freshSession cfg

/-! ## `sendMessage` -/

/-- The generic completion notice used when a final response has no
content. -/
def fallbackNotice : String := "I completed the requested actions."

/-- `response.toolCalls.map(tc => tc.name).join(', ')`. -/
def toolCallNames (tcs : List ToolCall) : String :=
  String.intercalate ", " (tcs.map ToolCall.name)

/-- The two messages appended per iteration of the tool loop: the
assistant's tool use and the combined tool results. -/
def toolExchange (env : ToolEnv) (resp : LLMResponse) (tcs : List ToolCall) :
    List Message :=
  let toolResults := tcs.map (fun tc =>
    "Tool: " ++ tc.name ++ "\nResult: " ++ executeTool env tc)
  let assistantContent :=
    if resp.content = "" then "Used tools: " ++ toolCallNames tcs
    else resp.content
  [{ role := .assistant, content := assistantContent },
   { role := .user,
     content := "Tool results:\n\n" ++ String.intercalate "\n\n" toolResults }]

/-- The agentic `while (response.toolCalls && iterations < maxIterations)`
loop of `sendMessage`, with `fuel = maxIterations - iterations` remaining
admissions into the body.  Returns the grown message list, the response
the loop exits with, and the number of `client.chat` calls made inside the
loop. -/
def toolLoop (client : Client) (env : ToolEnv) :
    Nat → List Message → LLMResponse → List Message × LLMResponse × Nat
  | 0, msgs, resp => (msgs, resp, 0)
  | fuel + 1, msgs, resp =>
    match resp.toolCalls with
    | none => (msgs, resp, 0)
    | some tcs =>
      let msgs1 := msgs ++ toolExchange env resp tcs
      let inner := toolLoop client env fuel msgs1 (client.chat msgs1)
      (inner.1, inner.2.1, inner.2.2 + 1)

/-- Result of a `sendMessage` call: the returned string or the raised
admission error, the session state after the call, and the number of
provider `chat` calls made. -/
structure SendOutcome where
  result : Except SessionError String
  session : ChatSession
  chatCalls : Nat

/-- `ChatSessionManager.sendMessage`. -/
def sendMessage (client : Client) (env : ToolEnv) (cfg : SessionConfig)
    (s : ChatSession) (userMessage : String) : SendOutcome :=
  if s.turnCount ≥ cfg.maxTurns then
    { result := .error (.turnLimit cfg.maxTurns), session := s, chatCalls := 0 }
  else
    let estimatedCost :=
      client.estimateCost (s.messages ++ [{ role := .user, content := userMessage }])
    if s.totalCost + estimatedCost > cfg.maxCostPerSession then
      { result := .error (.costLimit (s.totalCost + estimatedCost)
          cfg.maxCostPerSession)
        session := s, chatCalls := 0 }
    else
      let msgs0 := s.messages ++ [{ role := .user, content := userMessage }]
      let t := toolLoop client env 5 msgs0 (client.chat msgs0)
      let resp := t.2.1
      let finalContent :=
        if resp.content = "" then fallbackNotice else resp.content
      let msgs2 := t.1 ++ [{ role := .assistant, content := finalContent }]
      let newCost :=
        match resp.usage with
        | some u => s.totalCost + (u.totalTokens : ℚ) / 1000000 * 10
        | none => s.totalCost
      { result := .ok finalContent
        session := { messages := msgs2, turnCount := s.turnCount + 1,
                     totalCost := newCost }
        chatCalls := t.2.2 + 1 }

/-! ## `sendMessageStream` -/

/-- The tool loop of `sendMessageStream`: identical to `toolLoop` except
that each iteration first yields a tool-progress chunk.  The extra
component records, for every yielded chunk, the message list at the
moment of the yield — the history a consumer abandoning the stream right
after that chunk would leave behind (`turnCount`/`totalCost` are
reassembled by the caller, as they do not change inside the loop). -/
def streamToolLoop (client : Client) (env : ToolEnv) :
    Nat → List Message → LLMResponse →
      List Message × LLMResponse × Nat × List (String × List Message)
  | 0, msgs, resp => (msgs, resp, 0, [])
  | fuel + 1, msgs, resp =>
    match resp.toolCalls with
    | none => (msgs, resp, 0, [])
    | some tcs =>
      let progress := "\n🔧 Using tools: " ++ toolCallNames tcs ++ "...\n\n"
      let msgs1 := msgs ++ toolExchange env resp tcs
      let inner := streamToolLoop client env fuel msgs1 (client.chat msgs1)
      (inner.1, inner.2.1, inner.2.2.1 + 1, (progress, msgs) :: inner.2.2.2)

/-- Result of a fully-executed `sendMessageStream` generator: the raised
admission error if any, the yielded chunks each paired with the session
state observable if the consumer abandons the stream right after
consuming that chunk, the session state after the generator completes,
and the number of provider `chat` calls made. -/
structure StreamOutcome where
  result : Except SessionError Unit
  trace : List (String × ChatSession)
  finalSession : ChatSession
  chatCalls : Nat

/-- The final phase of `sendMessageStream`: stream the last response
through `streamChat` when the client supports streaming and the last
response does not still request tool use, otherwise fall back to yielding
the buffered content (or the generic notice) as one chunk.  Returns the
accumulated `finalContent` and the yielded chunks, each paired with the
message list at the moment of the yield. -/
def finalPhase (client : Client) (msgs1 : List Message)
    (resp : LLMResponse) : String × List (String × List Message) :=
  match client.streamChat with
  | some sc =>
    if client.supportsStreaming
        && !(resp.finishReason == FinishReason.tool_use) then
      (String.join (sc msgs1), (sc msgs1).map (fun c => (c, msgs1)))
    else
      (if resp.content = "" then fallbackNotice else resp.content,
       [(if resp.content = "" then fallbackNotice else resp.content, msgs1)])
  | none =>
    (if resp.content = "" then fallbackNotice else resp.content,
     [(if resp.content = "" then fallbackNotice else resp.content, msgs1)])

/-- `ChatSessionManager.sendMessageStream`. -/
def sendMessageStream (client : Client) (env : ToolEnv) (cfg : SessionConfig)
    (s : ChatSession) (userMessage : String) : StreamOutcome :=
  if s.turnCount ≥ cfg.maxTurns then
    { result := .error (.turnLimit cfg.maxTurns), trace := []
      finalSession := s, chatCalls := 0 }
  else
    let estimatedCost :=
      client.estimateCost (s.messages ++ [{ role := .user, content := userMessage }])
    if s.totalCost + estimatedCost > cfg.maxCostPerSession then
      { result := .error (.costLimit (s.totalCost + estimatedCost)
          cfg.maxCostPerSession)
        trace := [], finalSession := s, chatCalls := 0 }
    else
      let msgs0 := s.messages ++ [{ role := .user, content := userMessage }]
      let t := streamToolLoop client env 5 msgs0 (client.chat msgs0)
      let msgs1 := t.1
      let resp := t.2.1
      let fin := finalPhase client msgs1 resp
      let pushContent :=
        if fin.1 ≠ "" then fin.1
        else if resp.content ≠ "" then resp.content
        else fallbackNotice
      let msgs2 := msgs1 ++ [{ role := .assistant, content := pushContent }]
      let newCost :=
        match resp.usage with
        | some u => s.totalCost + (u.totalTokens : ℚ) / 1000000 * 10
        | none => s.totalCost
      { result := .ok ()
        trace := (t.2.2.2 ++ fin.2).map (fun p =>
          (p.1, { messages := p.2, turnCount := s.turnCount + 1,
                  totalCost := s.totalCost }))
        finalSession := { messages := msgs2, turnCount := s.turnCount + 1,
                          totalCost := newCost }
        chatCalls := t.2.2.1 + 1 }

end Corvus

namespace Corvus

/-! ## Concrete fixtures for witnesses and counterexamples -/

/-- A provider response with plain content and no tool calls. -/
def stopResponse (c : String) : LLMResponse :=
  { content := c, toolCalls := none, finishReason := .stop, usage := none }

/-- A provider response requesting one tool call. -/
def toolUseResponse (tc : ToolCall) : LLMResponse :=
  { content := "", toolCalls := some [tc], finishReason := .tool_use,
    usage := none }

/-- A chat-only client that always answers `"ok"` at zero estimated cost. -/
def stubClient : Client :=
  { chat := fun _ => stopResponse "ok"
    streamChat := none
    supportsStreaming := false
    estimateCost := fun _ => 0 }

/-- A tool environment whose collaborators all return the plain string
`"r"`. -/
def stubEnv : ToolEnv :=
  { getSOLBalanceTool := fun _ => .ok (.text "r")
    getTokenBalancesTool := fun _ => .ok (.text "r")
    getTokenPriceTool := fun _ => .ok (.text "r")
    getRecentTransactionsTool := fun _ _ => .ok (.text "r")
    getProtocolTVLTool := fun _ => .ok (.text "r")
    getTopProtocolsTool := fun _ _ => .ok (.text "r")
    analyzeWalletDeFiPositionsTool := fun _ => .ok (.text "r")
    sendTelegramAlertTool := fun _ _ _ => .ok (.text "r") }

/-- A small session configuration for concrete runs. -/
def stubConfig : SessionConfig :=
  { maxTurns := 2, maxCostPerSession := 1, systemPrompt := "sys" }

/-! ## Admission checks (claims C1, C2) -/

/-- **C1.** In every session state at or past the turn ceiling,
`sendMessage` raises the turn-limit admission error, leaves the session
exactly as it was (messages, turn count and total cost included), and
makes no provider `chat` call. -/
theorem sendMessage_turn_limit (client : Client) (env : ToolEnv)
    (cfg : SessionConfig) (s : ChatSession) (x : String)
    (h : cfg.maxTurns ≤ s.turnCount) :
    sendMessage client env cfg s x =
      { result := .error (.turnLimit cfg.maxTurns), session := s,
        chatCalls := 0 } := by
  simp [sendMessage, h]

/-- Witness for `sendMessage_turn_limit`: a session with two turns used
under a two-turn ceiling is rejected untouched. -/
theorem sendMessage_turn_limit_witness :
    stubConfig.maxTurns ≤ (2 : Nat) ∧
    sendMessage stubClient stubEnv stubConfig
        { messages := [{ role := .system, content := "sys" }],
          turnCount := 2, totalCost := 0 } "hi" =
      { result := .error (.turnLimit 2),
        session := { messages := [{ role := .system, content := "sys" }],
                     turnCount := 2, totalCost := 0 },
        chatCalls := 0 } :=
  ⟨by decide,
   sendMessage_turn_limit stubClient stubEnv stubConfig
     { messages := [{ role := .system, content := "sys" }],
       turnCount := 2, totalCost := 0 } "hi" (by decide)⟩

/-- **C2.** Below the turn ceiling, a turn is admitted exactly when
`total_cost + estimateCost(history + new user message) ≤ max_cost`; the
boundary case with equality is admitted, and a strictly larger estimated
total raises the cost-limit admission error with the session unchanged
and no provider call made. -/
theorem sendMessage_cost_ceiling (client : Client) (env : ToolEnv)
    (cfg : SessionConfig) (s : ChatSession) (x : String)
    (h : s.turnCount < cfg.maxTurns) :
    ((∃ r, (sendMessage client env cfg s x).result = .ok r) ↔
      s.totalCost + client.estimateCost
          (s.messages ++ [{ role := .user, content := x }]) ≤
        cfg.maxCostPerSession) ∧
    (cfg.maxCostPerSession <
        s.totalCost + client.estimateCost
          (s.messages ++ [{ role := .user, content := x }]) →
      sendMessage client env cfg s x =
        { result := .error (.costLimit
            (s.totalCost + client.estimateCost
              (s.messages ++ [{ role := .user, content := x }]))
            cfg.maxCostPerSession)
          session := s, chatCalls := 0 }) := by
  have h' : ¬ cfg.maxTurns ≤ s.turnCount := not_le.mpr h
  constructor
  · by_cases hc : cfg.maxCostPerSession <
        s.totalCost + client.estimateCost
          (s.messages ++ [{ role := .user, content := x }])
    · simp [sendMessage, h', hc, not_le.mpr hc]
    · simp [sendMessage, h', hc, not_lt.mp hc]
  · intro hc
    simp [sendMessage, h', hc]

/-- Witness for `sendMessage_cost_ceiling`: with zero estimated cost and
a fresh session, the turn is admitted; the boundary and rejection facts
are instances of the same equivalence. -/
theorem sendMessage_cost_ceiling_witness :
    (0 : Nat) < stubConfig.maxTurns ∧
    (∃ r, (sendMessage stubClient stubEnv stubConfig
        (freshSession stubConfig) "hi").result = .ok r) :=
  ⟨by decide,
   ((sendMessage_cost_ceiling stubClient stubEnv stubConfig
      (freshSession stubConfig) "hi" (by decide)).1).mpr
     (by norm_num [stubClient, freshSession, stubConfig])⟩

/-! ## Unfolding lemmas for the session machine -/

/-- `sendMessage` once both admission checks pass. -/
lemma sendMessage_admitted (client : Client) (env : ToolEnv)
    (cfg : SessionConfig) (s : ChatSession) (x : String)
    (h1 : s.turnCount < cfg.maxTurns)
    (h2 : s.totalCost + client.estimateCost
        (s.messages ++ [{ role := .user, content := x }]) ≤
      cfg.maxCostPerSession) :
    sendMessage client env cfg s x =
      (let msgs0 := s.messages ++ [{ role := Role.user, content := x }]
       let t := toolLoop client env 5 msgs0 (client.chat msgs0)
       let finalContent :=
         if t.2.1.content = "" then fallbackNotice else t.2.1.content
       { result := .ok finalContent
         session :=
           { messages :=
               t.1 ++ [{ role := Role.assistant, content := finalContent }]
             turnCount := s.turnCount + 1
             totalCost :=
               match t.2.1.usage with
               | some u => s.totalCost + (u.totalTokens : ℚ) / 1000000 * 10
               | none => s.totalCost }
         chatCalls := t.2.2 + 1 }) := by
  simp only [sendMessage, not_le.mpr h1, if_false,
    if_neg (not_lt.mpr h2)]

/-- `sendMessageStream` once both admission checks pass. -/
lemma sendMessageStream_admitted (client : Client) (env : ToolEnv)
    (cfg : SessionConfig) (s : ChatSession) (x : String)
    (h1 : s.turnCount < cfg.maxTurns)
    (h2 : s.totalCost + client.estimateCost
        (s.messages ++ [{ role := .user, content := x }]) ≤
      cfg.maxCostPerSession) :
    sendMessageStream client env cfg s x =
      (let msgs0 := s.messages ++ [{ role := Role.user, content := x }]
       let t := streamToolLoop client env 5 msgs0 (client.chat msgs0)
       let resp := t.2.1
       let fin := finalPhase client t.1 resp
       let pushContent :=
         if fin.1 ≠ "" then fin.1
         else if resp.content ≠ "" then resp.content
         else fallbackNotice
       { result := .ok ()
         trace := (t.2.2.2 ++ fin.2).map (fun p =>
           (p.1, { messages := p.2, turnCount := s.turnCount + 1,
                   totalCost := s.totalCost }))
         finalSession :=
           { messages :=
               t.1 ++ [{ role := Role.assistant, content := pushContent }]
             turnCount := s.turnCount + 1
             totalCost :=
               match resp.usage with
               | some u => s.totalCost + (u.totalTokens : ℚ) / 1000000 * 10
               | none => s.totalCost }
         chatCalls := t.2.2.1 + 1 }) := by
  simp only [sendMessageStream, not_le.mpr h1, if_false,
    if_neg (not_lt.mpr h2)]

/-- The tool loop exits immediately when the response carries no
`toolCalls` field. -/
lemma toolLoop_none (client : Client) (env : ToolEnv) (fuel : Nat)
    (msgs : List Message) (resp : LLMResponse)
    (h : resp.toolCalls = none) :
    toolLoop client env fuel msgs resp = (msgs, resp, 0) := by
  cases fuel <;> simp [toolLoop, h]

/-- The streaming tool loop exits immediately when the response carries
no `toolCalls` field. -/
lemma streamToolLoop_none (client : Client) (env : ToolEnv) (fuel : Nat)
    (msgs : List Message) (resp : LLMResponse)
    (h : resp.toolCalls = none) :
    streamToolLoop client env fuel msgs resp = (msgs, resp, 0, []) := by
  cases fuel <;> simp [streamToolLoop, h]

/-- Every chunk of the final phase is yielded at the history `msgs1`. -/
lemma finalPhase_snd (client : Client) (msgs1 : List Message)
    (resp : LLMResponse) :
    ∀ q ∈ (finalPhase client msgs1 resp).2, q.2 = msgs1 := by
  intro q hq
  unfold finalPhase at hq
  split at hq
  · by_cases hb : (client.supportsStreaming
        && !(resp.finishReason == FinishReason.tool_use)) = true
    · rw [if_pos hb] at hq
      obtain ⟨c, hc, hce⟩ := List.mem_map.mp hq
      rw [← hce]
    · rw [if_neg hb] at hq
      rw [List.mem_singleton.mp hq]
  · rw [List.mem_singleton.mp hq]

/-- Without streaming support, the final phase yields the buffered
content (or the generic notice) as a single chunk. -/
lemma finalPhase_no_streaming (client : Client) (msgs1 : List Message)
    (resp : LLMResponse) (hss : client.supportsStreaming = false) :
    finalPhase client msgs1 resp =
      (if resp.content = "" then fallbackNotice else resp.content,
       [(if resp.content = "" then fallbackNotice else resp.content,
         msgs1)]) := by
  unfold finalPhase
  cases client.streamChat with
  | none => rfl
  | some sc => simp [hss]

/-- The tool loop only appends to the message history. -/
lemma toolLoop_grows (client : Client) (env : ToolEnv) :
    ∀ (fuel : Nat) (msgs : List Message) (resp : LLMResponse),
      msgs <+: (toolLoop client env fuel msgs resp).1
  | 0, msgs, resp => List.prefix_refl msgs
  | fuel + 1, msgs, resp => by
    unfold toolLoop
    match h : resp.toolCalls with
    | none => simp
    | some tcs =>
      simp only
      exact ((msgs.prefix_append (toolExchange env resp tcs)).trans
        (toolLoop_grows client env fuel _ _))

/-- The streaming tool loop only appends to the message history. -/
lemma streamToolLoop_grows (client : Client) (env : ToolEnv) :
    ∀ (fuel : Nat) (msgs : List Message) (resp : LLMResponse),
      msgs <+: (streamToolLoop client env fuel msgs resp).1
  | 0, msgs, resp => List.prefix_refl msgs
  | fuel + 1, msgs, resp => by
    unfold streamToolLoop
    match h : resp.toolCalls with
    | none => simp
    | some tcs =>
      simp only
      exact ((msgs.prefix_append (toolExchange env resp tcs)).trans
        (streamToolLoop_grows client env fuel _ _))

/-- A prefix keeps the head. -/
lemma prefix_head?_eq {α : Type} {l₁ l₂ : List α} {m : α}
    (h : l₁ <+: l₂) (hm : l₁.head? = some m) : l₂.head? = some m := by
  obtain ⟨t, rfl⟩ := h
  cases l₁ with
  | nil => simp at hm
  | cons a l => simpa using hm

/-- A successful `sendMessage` implies both admission checks passed. -/
lemma sendMessage_ok_admission (client : Client) (env : ToolEnv)
    (cfg : SessionConfig) (s : ChatSession) (x : String) (r : String)
    (h : (sendMessage client env cfg s x).result = .ok r) :
    s.turnCount < cfg.maxTurns ∧
    s.totalCost + client.estimateCost
        (s.messages ++ [{ role := .user, content := x }]) ≤
      cfg.maxCostPerSession := by
  by_cases h1 : cfg.maxTurns ≤ s.turnCount
  · simp [sendMessage, h1] at h
  · by_cases h2 : cfg.maxCostPerSession <
        s.totalCost + client.estimateCost
          (s.messages ++ [{ role := .user, content := x }])
    · simp [sendMessage, h1, h2] at h
    · exact ⟨not_le.mp h1, not_lt.mp h2⟩

/-! ## Session invariants (claim C3) -/

/-- **C3.** A completed `sendMessage` and a completed (fully drained)
`sendMessageStream` both: keep the first message (the system message)
as the first element, grow `messages` only by appending whole messages,
increase `turn_count` by one while keeping it at most `max_turns`, and
never decrease `total_cost`; and `clearHistory` resets the session to
exactly the single system message with zeroed counters. -/
theorem session_invariants (client : Client) (env : ToolEnv)
    (cfg : SessionConfig) (s : ChatSession) (x : String) (r : String)
    (hA : (sendMessage client env cfg s x).result = .ok r)
    (hB : (sendMessageStream client env cfg s x).result = .ok ()) :
    ((∀ m, s.messages.head? = some m →
        (sendMessage client env cfg s x).session.messages.head? = some m) ∧
      s.messages <+: (sendMessage client env cfg s x).session.messages ∧
      s.turnCount ≤ (sendMessage client env cfg s x).session.turnCount ∧
      (sendMessage client env cfg s x).session.turnCount ≤ cfg.maxTurns ∧
      s.totalCost ≤ (sendMessage client env cfg s x).session.totalCost) ∧
    ((∀ m, s.messages.head? = some m →
        (sendMessageStream client env cfg s x).finalSession.messages.head? =
          some m) ∧
      s.messages <+:
        (sendMessageStream client env cfg s x).finalSession.messages ∧
      s.turnCount ≤
        (sendMessageStream client env cfg s x).finalSession.turnCount ∧
      (sendMessageStream client env cfg s x).finalSession.turnCount ≤
        cfg.maxTurns ∧
      s.totalCost ≤
        (sendMessageStream client env cfg s x).finalSession.totalCost) ∧
    clearHistory cfg =
      { messages := [{ role := .system, content := cfg.systemPrompt }],
        turnCount := 0, totalCost := 0 } := by
  obtain ⟨h1, h2⟩ := sendMessage_ok_admission client env cfg s x r hA
  rw [sendMessage_admitted client env cfg s x h1 h2,
    sendMessageStream_admitted client env cfg s x h1 h2]
  simp only
  have hpreA : s.messages <+:
      (toolLoop client env 5
        (s.messages ++ [{ role := Role.user, content := x }])
        (client.chat (s.messages ++ [{ role := Role.user, content := x }]))).1 ++
      [{ role := Role.assistant,
         content := if (toolLoop client env 5
             (s.messages ++ [{ role := Role.user, content := x }])
             (client.chat (s.messages ++
               [{ role := Role.user, content := x }]))).2.1.content = ""
           then fallbackNotice
           else (toolLoop client env 5
             (s.messages ++ [{ role := Role.user, content := x }])
             (client.chat (s.messages ++
               [{ role := Role.user, content := x }]))).2.1.content }] :=
    (((s.messages.prefix_append _).trans
      (toolLoop_grows client env 5 _ _)).trans (List.prefix_append _ _))
  have hpreB : s.messages <+:
      (streamToolLoop client env 5
        (s.messages ++ [{ role := Role.user, content := x }])
        (client.chat (s.messages ++ [{ role := Role.user, content := x }]))).1 :=
    ((s.messages.prefix_append _).trans
      (streamToolLoop_grows client env 5 _ _))
  refine ⟨⟨fun m hm => prefix_head?_eq hpreA hm, hpreA, Nat.le_succ _,
      h1, ?_⟩,
    ⟨fun m hm => prefix_head?_eq (hpreB.trans (List.prefix_append _ _)) hm,
      hpreB.trans (List.prefix_append _ _), Nat.le_succ _, h1, ?_⟩, rfl⟩
  · cases (toolLoop client env 5
        (s.messages ++ [{ role := Role.user, content := x }])
        (client.chat (s.messages ++
          [{ role := Role.user, content := x }]))).2.1.usage with
    | none => exact le_refl _
    | some u => exact le_add_of_nonneg_right (by positivity)
  · cases (streamToolLoop client env 5
        (s.messages ++ [{ role := Role.user, content := x }])
        (client.chat (s.messages ++
          [{ role := Role.user, content := x }]))).2.1.usage with
    | none => exact le_refl _
    | some u => exact le_add_of_nonneg_right (by positivity)

/-- Evaluation of a `sendMessage` run against the stub fixtures. -/
lemma stubRun_sendMessage :
    sendMessage stubClient stubEnv stubConfig (freshSession stubConfig) "hi" =
      { result := .ok "ok"
        session :=
          { messages := [{ role := .system, content := "sys" },
              { role := .user, content := "hi" },
              { role := .assistant, content := "ok" }]
            turnCount := 1, totalCost := 0 }
        chatCalls := 1 } := by
  rw [sendMessage_admitted stubClient stubEnv stubConfig
    (freshSession stubConfig) "hi" (by decide)
    (by norm_num [stubClient, freshSession, stubConfig])]
  simp [stubClient, stopResponse, freshSession, stubConfig, toolLoop_none]

/-- Evaluation of a `sendMessageStream` run against the stub fixtures. -/
lemma stubRun_sendMessageStream :
    sendMessageStream stubClient stubEnv stubConfig (freshSession stubConfig)
        "hi" =
      { result := .ok ()
        trace := [("ok",
          { messages := [{ role := .system, content := "sys" },
              { role := .user, content := "hi" }]
            turnCount := 1, totalCost := 0 })]
        finalSession :=
          { messages := [{ role := .system, content := "sys" },
              { role := .user, content := "hi" },
              { role := .assistant, content := "ok" }]
            turnCount := 1, totalCost := 0 }
        chatCalls := 1 } := by
  rw [sendMessageStream_admitted stubClient stubEnv stubConfig
    (freshSession stubConfig) "hi" (by decide)
    (by norm_num [stubClient, freshSession, stubConfig])]
  simp [stubClient, stopResponse, freshSession, stubConfig,
    streamToolLoop_none, finalPhase]

/-- Witness for `session_invariants`: the stub run satisfies the
invariants concretely. -/
theorem session_invariants_witness :
    (freshSession stubConfig).messages <+:
      (sendMessage stubClient stubEnv stubConfig (freshSession stubConfig)
        "hi").session.messages ∧
    (sendMessage stubClient stubEnv stubConfig (freshSession stubConfig)
      "hi").session.turnCount ≤ stubConfig.maxTurns :=
  have h := session_invariants stubClient stubEnv stubConfig
    (freshSession stubConfig) "hi" "ok"
    (by rw [stubRun_sendMessage]) (by rw [stubRun_sendMessageStream])
  ⟨h.1.2.1, h.1.2.2.2.1⟩

/-! ## Tool-loop iteration ceiling (claim C4) -/

/-- Against a client whose every response carries a `toolCalls` field,
the tool loop consumes all its fuel, makes one `chat` call per iteration,
and exits with the response to the message list it has built. -/
lemma toolLoop_always_some (client : Client) (env : ToolEnv)
    (htc : ∀ msgs, ((client.chat msgs).toolCalls).isSome = true) :
    ∀ (fuel : Nat) (msgs : List Message) (resp : LLMResponse),
      (resp.toolCalls).isSome = true →
      (toolLoop client env fuel msgs resp).2.2 = fuel ∧
      (0 < fuel → (toolLoop client env fuel msgs resp).2.1 =
        client.chat (toolLoop client env fuel msgs resp).1)
  | 0, msgs, resp => fun _ =>
    ⟨rfl, fun h => absurd h (lt_irrefl 0)⟩
  | fuel + 1, msgs, resp => by
    intro hr
    rcases h : resp.toolCalls with _ | tcs
    · rw [h] at hr; simp at hr
    · have ih := toolLoop_always_some client env htc fuel
        (msgs ++ toolExchange env resp tcs)
        (client.chat (msgs ++ toolExchange env resp tcs))
        (htc _)
      unfold toolLoop
      rw [h]
      refine ⟨by simpa using ih.1, fun _ => ?_⟩
      cases fuel with
      | zero => rfl
      | succ n => simpa using ih.2 (Nat.succ_pos n)

/-- `(l ++ [a]).dropLast = l`. -/
lemma dropLast_append_singleton {α : Type} (l : List α) (a : α) :
    (l ++ [a]).dropLast = l := by simp

/-- **C4.** Against a client whose every response requests tool use,
an admitted `sendMessage` performs exactly 5 tool-resolution iterations
— 6 provider `chat` calls in total — and then terminates, returning the
last response's content, or the generic fallback string when that
content is empty. -/
theorem sendMessage_iteration_ceiling (client : Client) (env : ToolEnv)
    (cfg : SessionConfig) (s : ChatSession) (x : String)
    (htc : ∀ msgs, ((client.chat msgs).toolCalls).isSome = true)
    (h1 : s.turnCount < cfg.maxTurns)
    (h2 : s.totalCost + client.estimateCost
        (s.messages ++ [{ role := .user, content := x }]) ≤
      cfg.maxCostPerSession) :
    (sendMessage client env cfg s x).chatCalls = 6 ∧
    (sendMessage client env cfg s x).result =
      .ok (if (client.chat
          ((sendMessage client env cfg s x).session.messages.dropLast)).content
            = "" then fallbackNotice
        else (client.chat
          ((sendMessage client env cfg s x).session.messages.dropLast)).content)
      := by
  rw [sendMessage_admitted client env cfg s x h1 h2]
  simp only
  have h := toolLoop_always_some client env htc 5
    (s.messages ++ [{ role := Role.user, content := x }])
    (client.chat (s.messages ++ [{ role := Role.user, content := x }]))
    (htc _)
  rw [dropLast_append_singleton]
  rw [← h.2 (by norm_num)]
  exact ⟨by rw [h.1], rfl⟩

/-- A client that always requests the same tool call, at zero cost. -/
def alwaysToolClient : Client :=
  { chat := fun _ => toolUseResponse ⟨"1", "get_sol_balance", []⟩
    streamChat := none
    supportsStreaming := false
    estimateCost := fun _ => 0 }

/-- Witness for `sendMessage_iteration_ceiling`: the always-tool-use stub
makes exactly 6 chat calls. -/
theorem sendMessage_iteration_ceiling_witness :
    (sendMessage alwaysToolClient stubEnv stubConfig
      (freshSession stubConfig) "hi").chatCalls = 6 :=
  (sendMessage_iteration_ceiling alwaysToolClient stubEnv stubConfig
    (freshSession stubConfig) "hi" (fun _ => rfl) (by decide)
    (by norm_num [alwaysToolClient, freshSession, stubConfig])).1

/-! ## Empty `toolCalls` list still enters the loop (claim C10) -/

/-- Against a client whose every response carries `toolCalls: []`, the
loop body runs on every fuel step, appending per iteration one assistant
message and one tool-results message containing zero results. -/
lemma toolLoop_empty_toolCalls (client : Client) (env : ToolEnv)
    (htc : ∀ msgs, (client.chat msgs).toolCalls = some []) :
    ∀ (fuel : Nat) (msgs : List Message) (resp : LLMResponse),
      resp.toolCalls = some [] →
      ∃ pairs : List (List Message),
        pairs.length = fuel ∧
        (∀ p ∈ pairs, ∃ a,
          p = [{ role := Role.assistant, content := a },
               { role := Role.user, content := "Tool results:\n\n" }]) ∧
        (toolLoop client env fuel msgs resp).1 = msgs ++ pairs.flatten ∧
        (toolLoop client env fuel msgs resp).2.2 = fuel
  | 0, msgs, resp => fun _ => ⟨[], rfl, by simp, by simp [toolLoop], rfl⟩
  | fuel + 1, msgs, resp => by
    intro hr
    have hex : toolExchange env resp [] =
        [{ role := Role.assistant,
           content := if resp.content = "" then "Used tools: "
             else resp.content },
         { role := Role.user, content := "Tool results:\n\n" }] := by
      simp [toolExchange, toolCallNames, String.intercalate]
    obtain ⟨pairs, hlen, hshape, hmsgs, hcount⟩ :=
      toolLoop_empty_toolCalls client env htc fuel
        (msgs ++ toolExchange env resp [])
        (client.chat (msgs ++ toolExchange env resp [])) (htc _)
    refine ⟨toolExchange env resp [] :: pairs, by simp [hlen], ?_, ?_, ?_⟩
    · intro p hp
      rcases List.mem_cons.mp hp with rfl | hp
      · exact ⟨_, hex⟩
      · exact hshape p hp
    · unfold toolLoop
      rw [hr]
      simpa [List.append_assoc] using hmsgs
    · unfold toolLoop
      rw [hr]
      simpa using hcount

/-- **C10.** Against a client whose every response carries a `toolCalls`
field holding the empty list, an admitted `sendMessage` enters the
tool-execution sub-loop anyway — appending per iteration one assistant
message and one tool-results message containing zero results and
re-querying the client — and repeats until the 5-iteration ceiling
(6 chat calls in total) instead of returning the response's content
immediately. -/
theorem sendMessage_empty_toolCalls_loops (client : Client) (env : ToolEnv)
    (cfg : SessionConfig) (s : ChatSession) (x : String)
    (htc : ∀ msgs, (client.chat msgs).toolCalls = some [])
    (h1 : s.turnCount < cfg.maxTurns)
    (h2 : s.totalCost + client.estimateCost
        (s.messages ++ [{ role := .user, content := x }]) ≤
      cfg.maxCostPerSession) :
    (sendMessage client env cfg s x).chatCalls = 6 ∧
    ∃ (pairs : List (List Message)) (fc : String),
      pairs.length = 5 ∧
      (∀ p ∈ pairs, ∃ a,
        p = [{ role := Role.assistant, content := a },
             { role := Role.user, content := "Tool results:\n\n" }]) ∧
      (sendMessage client env cfg s x).result = .ok fc ∧
      (sendMessage client env cfg s x).session.messages =
        s.messages ++ [{ role := Role.user, content := x }] ++ pairs.flatten
          ++ [{ role := Role.assistant, content := fc }] := by
  rw [sendMessage_admitted client env cfg s x h1 h2]
  simp only
  obtain ⟨pairs, hlen, hshape, hmsgs, hcount⟩ :=
    toolLoop_empty_toolCalls client env htc 5
      (s.messages ++ [{ role := Role.user, content := x }])
      (client.chat (s.messages ++ [{ role := Role.user, content := x }]))
      (htc _)
  refine ⟨by rw [hcount], pairs, _, hlen, hshape, rfl, ?_⟩
  rw [hmsgs, List.append_assoc]

/-- A client that always returns content together with an empty
`toolCalls` list, at zero cost. -/
def emptyToolCallsClient : Client :=
  { chat := fun _ =>
      { content := "c", toolCalls := some [], finishReason := .stop,
        usage := none }
    streamChat := none
    supportsStreaming := false
    estimateCost := fun _ => 0 }

/-- Witness for `sendMessage_empty_toolCalls_loops`: the empty-list stub
still makes 6 chat calls. -/
theorem sendMessage_empty_toolCalls_loops_witness :
    (sendMessage emptyToolCallsClient stubEnv stubConfig
      (freshSession stubConfig) "hi").chatCalls = 6 :=
  (sendMessage_empty_toolCalls_loops emptyToolCallsClient stubEnv stubConfig
    (freshSession stubConfig) "hi" (fun _ => rfl) (by decide)
    (by norm_num [emptyToolCallsClient, freshSession, stubConfig])).1

/-! ## Field-lookup lemmas for the truncation policy -/

lemma getF_setF_self (fs : List (String × JsValue)) (k : String)
    (v : JsValue) : getF (setF fs k v) k = some v := by
  induction fs with
  | nil => simp [setF, getF]
  | cons hd tl ih =>
    obtain ⟨k', v'⟩ := hd
    by_cases h : k' = k
    · simp [setF, h, getF]
    · simp [setF, h, getF, ih]

lemma getF_setF_ne (fs : List (String × JsValue)) (k j : String)
    (v : JsValue) (h : k ≠ j) : getF (setF fs k v) j = getF fs j := by
  induction fs with
  | nil => simp [setF, getF, h]
  | cons hd tl ih =>
    obtain ⟨k', v'⟩ := hd
    by_cases h1 : k' = k
    · subst h1
      simp [setF, getF, h]
    · by_cases h2 : k' = j
      · subst h2
        simp [setF, getF, h1, Ne.symm h]
      · simp [setF, getF, h1, h2, ih]

lemma getF_delF_self (fs : List (String × JsValue)) (k : String) :
    getF (delF fs k) k = none := by
  induction fs with
  | nil => simp [delF, getF]
  | cons hd tl ih =>
    obtain ⟨k', v'⟩ := hd
    by_cases h : k' = k
    · simpa [delF, h] using ih
    · simpa [delF, getF, h] using ih

lemma getF_delF_ne (fs : List (String × JsValue)) (k j : String)
    (h : k ≠ j) : getF (delF fs k) j = getF fs j := by
  induction fs with
  | nil => simp [delF, getF]
  | cons hd tl ih =>
    obtain ⟨k', v'⟩ := hd
    by_cases h1 : k' = k
    · subst h1
      simpa [delF, getF, h] using ih
    · by_cases h2 : k' = j
      · subst h2
        simp [delF, getF, h1]
      · simpa [delF, getF, h1, h2] using ih

/-- Is the value a non-empty array? -/
def isNonemptyArr : JsValue → Bool
  | .vArr (_ :: _) => true
  | _ => false

/-- A field value on which `collapseTvl` would not act. -/
def notNonemptyArr : Option JsValue → Bool
  | some v => !isNonemptyArr v
  | none => true

/-- A `tvl` field value whose collapse is stable: if it is a non-empty
array, then either reading `totalLiquidityUSD` off its last element
throws — aborting the whole transform, whose `catch` fallback is itself
stable — or the collapsed replacement (`latest.totalLiquidityUSD || 0`)
is not itself a non-empty array. -/
def stableCollapse : Option JsValue → Bool
  | some (.vArr xs) =>
    match xs.getLast? with
    | some latest =>
      match getJs latest "totalLiquidityUSD" with
      | .error () => true
      | .ok o => !isNonemptyArr (orZero o)
    | none => true
  | _ => true

/-- A `chain_breakdown` field value on which `dropChainBreakdown` would
not act. -/
def cbStable : Option JsValue → Bool
  | some v => !truthy v
  | none => true

/-- An array field value on which `capArray` would not act. -/
def capStable (o : Option JsValue) (cap : Nat) : Bool :=
  match o with
  | some (.vArr xs) => decide (xs.length ≤ cap)
  | _ => true

lemma getF_collapseTvl_ne (fs fs1 : List (String × JsValue))
    (key j : String) (h : collapseTvl fs key = Except.ok fs1)
    (hne : key ≠ j) : getF fs1 j = getF fs j := by
  unfold collapseTvl at h
  split at h
  · split at h
    · split at h
      · exact absurd h (by simp)
      · simp only [Except.ok.injEq] at h
        rw [← h]
        exact getF_setF_ne fs key j _ hne
    · simp only [Except.ok.injEq] at h
      rw [← h]
  · simp only [Except.ok.injEq] at h
    rw [← h]

lemma getF_dropChainBreakdown_ne (fs : List (String × JsValue)) (j : String)
    (h : j ≠ "chain_breakdown") :
    getF (dropChainBreakdown fs) j = getF fs j := by
  unfold dropChainBreakdown
  split
  · split
    · exact getF_delF_ne fs _ j (Ne.symm h)
    · rfl
  · rfl

lemma getF_capArray_ne (fs : List (String × JsValue)) (key : String)
    (cap : Nat) (noun : String) (j : String) (h1 : key ≠ j)
    (h2 : j ≠ "_truncated") :
    getF (capArray fs key cap noun) j = getF fs j := by
  unfold capArray
  split
  · split
    · rw [getF_setF_ne _ _ _ _ (Ne.symm h2), getF_setF_ne _ _ _ _ h1]
    · rfl
  · rfl

lemma collapseTvl_id (fs : List (String × JsValue)) (key : String)
    (h : notNonemptyArr (getF fs key) = true) :
    collapseTvl fs key = .ok fs := by
  unfold collapseTvl
  split
  · rename_i xs heq
    split
    · exfalso
      rw [heq] at h
      rcases xs with _ | ⟨a, as⟩
      · rename_i hl
        simp at hl
      · simp [notNonemptyArr, isNonemptyArr] at h
    · rfl
  · rfl

lemma collapseTvl_post (fs fs1 : List (String × JsValue)) (key : String)
    (h : collapseTvl fs key = Except.ok fs1)
    (hs : stableCollapse (getF fs key) = true) :
    notNonemptyArr (getF fs1 key) = true := by
  unfold collapseTvl at h
  split at h
  · rename_i xs heq
    split at h
    · rename_i latest hl
      split at h
      · exact absurd h (by simp)
      · rename_i o hg
        simp only [Except.ok.injEq] at h
        rw [← h, getF_setF_self]
        rw [heq] at hs
        simp only [stableCollapse, hl, hg] at hs
        simpa [notNonemptyArr] using hs
    · rename_i hl
      simp only [Except.ok.injEq] at h
      rw [← h, heq]
      rcases xs with _ | ⟨a, as⟩
      · simp [notNonemptyArr, isNonemptyArr]
      · simp at hl
  · rename_i x heq
    simp only [Except.ok.injEq] at h
    rw [← h]
    rcases hgg : getF fs key with _ | v
    · rfl
    · rcases v with _ | _ | _ | _ | xs | _ <;> try rfl
      rcases xs with _ | ⟨a, as⟩
      · rfl
      · exact (heq (a :: as) hgg).elim

lemma dropChainBreakdown_id (fs : List (String × JsValue))
    (h : cbStable (getF fs "chain_breakdown") = true) :
    dropChainBreakdown fs = fs := by
  unfold dropChainBreakdown
  split
  · rename_i v heq
    rw [heq] at h
    simp only [cbStable, Bool.not_eq_true'] at h
    simp [h]
  · rfl

lemma dropChainBreakdown_post (fs : List (String × JsValue)) :
    cbStable (getF (dropChainBreakdown fs) "chain_breakdown") = true := by
  unfold dropChainBreakdown
  split
  · rename_i v heq
    by_cases ht : truthy v
    · rw [if_pos ht, getF_delF_self]
      rfl
    · rw [if_neg ht, heq]
      simp only [Bool.not_eq_true] at ht
      simp [cbStable, ht]
  · rename_i heq
    rw [heq]
    rfl

lemma capArray_id (fs : List (String × JsValue)) (key : String) (cap : Nat)
    (noun : String) (h : capStable (getF fs key) cap = true) :
    capArray fs key cap noun = fs := by
  unfold capArray
  split
  · rename_i xs heq
    rw [heq] at h
    simp only [capStable, decide_eq_true_eq] at h
    rw [if_neg (Nat.not_lt.mpr h)]
  · rfl

lemma capArray_post (fs : List (String × JsValue)) (key : String) (cap : Nat)
    (noun : String) (hk : key ≠ "_truncated") :
    capStable (getF (capArray fs key cap noun) key) cap = true := by
  unfold capArray
  split
  · rename_i xs heq
    by_cases hl : xs.length > cap
    · rw [if_pos hl, getF_setF_ne _ _ _ _ (Ne.symm hk), getF_setF_self]
      simp only [capStable, decide_eq_true_eq, List.length_take]
      exact min_le_left _ _
    · rw [if_neg hl, heq]
      simp only [capStable, decide_eq_true_eq]
      exact Nat.not_lt.mp hl
  · rename_i x heq
    rcases hgg : getF fs key with _ | v
    · rfl
    · rcases v with _ | _ | _ | _ | xs | _ <;> try rfl
      exact (heq xs hgg).elim

/-! ## Truncation idempotence (claim C5) -/

/-- Inputs on which re-truncation is provably a no-op: the `tvl_total`
and `tvl_solana` fields (when present as non-empty arrays) must either
throw on collapse — aborting the transform in favour of the stable
string fallback — or collapse to a value that is not itself a non-empty
array. -/
def truncStableInput : ToolResult → Bool
  | .json _ (.vObj fs) =>
    stableCollapse (getF fs "tvl_total") &&
      stableCollapse (getF fs "tvl_solana")
  | _ => true

/-- The 5000-character cut plus marker is a fixed point of the text
branch. -/
lemma truncateText_fixed (s : String) (h : s.length > 5000) :
    truncateText (String.mk (s.data.take 5000) ++ "...[truncated]") =
      String.mk (s.data.take 5000) ++ "...[truncated]" := by
  have htake : (s.data.take 5000).length = 5000 := by
    rw [List.length_take]
    exact min_eq_left (Nat.le_of_lt h)
  have hlen : (String.mk (s.data.take 5000) ++ "...[truncated]").length
      = 5014 := by
    rw [String.length_append]
    rw [show (String.mk (s.data.take 5000)).length =
      (s.data.take 5000).length from rfl, htake]
    rfl
  unfold truncateText
  rw [if_pos (by rw [hlen]; norm_num)]
  congr 1
  rw [show (String.mk (s.data.take 5000) ++ "...[truncated]").data =
    s.data.take 5000 ++ ("...[truncated]" : String).data from
    String.data_append _ _]
  congr 1
  rw [List.take_append_eq_append_take, htake]
  simp

/-- The plain-text branch is idempotent: the 5000-character cut plus
marker is stable under re-application. -/
lemma truncateText_idem (s : String) :
    truncateText (truncateText s) = truncateText s := by
  by_cases h : s.length > 5000
  · have e : truncateText s =
        String.mk (s.data.take 5000) ++ "...[truncated]" := by
      unfold truncateText
      rw [if_pos h]
    rw [e]
    exact truncateText_fixed s h
  · have e : truncateText s = s := by
      unfold truncateText
      rw [if_neg h]
    rw [e]
    exact e

/-- The structured transform, when it succeeds, is idempotent on stable
inputs: a second pass over its output succeeds and changes nothing. -/
lemma truncFields_idem (fs gs : List (String × JsValue))
    (h : truncFields fs = Except.ok gs)
    (h1 : stableCollapse (getF fs "tvl_total") = true)
    (h2 : stableCollapse (getF fs "tvl_solana") = true) :
    truncFields gs = .ok gs := by
  unfold truncFields at h
  split at h
  · exact absurd h (by simp)
  · rename_i fs1 hc1
    split at h
    · exact absurd h (by simp)
    · rename_i fs2 hc2
      simp only [Except.ok.injEq] at h
      have e1 : getF gs "tvl_total" = getF fs1 "tvl_total" := by
        rw [← h, getF_capArray_ne _ _ _ _ _ (by decide) (by decide),
          getF_capArray_ne _ _ _ _ _ (by decide) (by decide),
          getF_dropChainBreakdown_ne _ _ (by decide),
          getF_collapseTvl_ne fs1 fs2 _ _ hc2 (by decide)]
      have e2 : getF gs "tvl_solana" = getF fs2 "tvl_solana" := by
        rw [← h, getF_capArray_ne _ _ _ _ _ (by decide) (by decide),
          getF_capArray_ne _ _ _ _ _ (by decide) (by decide),
          getF_dropChainBreakdown_ne _ _ (by decide)]
      have e3 : getF gs "chain_breakdown" =
          getF (dropChainBreakdown fs2) "chain_breakdown" := by
        rw [← h, getF_capArray_ne _ _ _ _ _ (by decide) (by decide),
          getF_capArray_ne _ _ _ _ _ (by decide) (by decide)]
      have e4 : getF gs "tokens" =
          getF (capArray (dropChainBreakdown fs2) "tokens" 10 "tokens")
            "tokens" := by
        rw [← h, getF_capArray_ne _ _ _ _ _ (by decide) (by decide)]
      have hA : collapseTvl gs "tvl_total" = .ok gs := by
        refine collapseTvl_id _ _ ?_
        rw [e1]
        exact collapseTvl_post fs fs1 "tvl_total" hc1 h1
      have hB : collapseTvl gs "tvl_solana" = .ok gs := by
        refine collapseTvl_id _ _ ?_
        rw [e2]
        refine collapseTvl_post fs1 fs2 "tvl_solana" hc2 ?_
        rw [getF_collapseTvl_ne fs fs1 _ _ hc1 (by decide)]
        exact h2
      have hC : dropChainBreakdown gs = gs := by
        refine dropChainBreakdown_id _ ?_
        rw [e3]
        exact dropChainBreakdown_post _
      have hD : capArray gs "tokens" 10 "tokens" = gs := by
        refine capArray_id _ _ _ _ ?_
        rw [e4]
        exact capArray_post _ _ _ _ (by decide)
      have hE : capArray gs "transactions" 5 "transactions" = gs := by
        refine capArray_id _ _ _ _ ?_
        rw [← h]
        exact capArray_post _ _ _ _ (by decide)
      unfold truncFields
      simp only [hA, hB]
      rw [hC, hD, hE]

/-- **C5 (counterexample).** Truncation is *not* idempotent on every
input: a `tvl_total` array whose last element's `totalLiquidityUSD` is
itself a non-empty array is collapsed to that array by the first
application and re-collapsed by the second (here to `0`, the last
element being a number). -/
theorem truncateToolResult_not_idempotent :
    truncateToolResult (truncateToolResult (.json
      (jsStringify (.vObj [("tvl_total",
        .vArr [.vObj [("totalLiquidityUSD", .vArr [.vNum 1])]])]))
      (.vObj [("tvl_total",
        .vArr [.vObj [("totalLiquidityUSD", .vArr [.vNum 1])]])]))) ≠
    truncateToolResult (.json
      (jsStringify (.vObj [("tvl_total",
        .vArr [.vObj [("totalLiquidityUSD", .vArr [.vNum 1])]])]))
      (.vObj [("tvl_total",
        .vArr [.vObj [("totalLiquidityUSD", .vArr [.vNum 1])]])])) := by
  decide

/-- **C5 (amended).** Truncation is idempotent on every input — plain
text of any size, structured data with oversized `tokens` or
`transactions` arrays, and structured data whose transform throws a
`TypeError` (a `null` where a property is read: the `catch` then
length-caps the original string, which is itself stable) — except
structured results whose `tvl_total` or `tvl_solana` field is a
non-empty array whose last element's `totalLiquidityUSD` property
reads, without throwing, as a value that is itself a non-empty array:
the counterexample shows a second application then collapses such a
field again. -/
theorem truncateToolResult_idempotent (x : ToolResult)
    (h : truncStableInput x = true) :
    truncateToolResult (truncateToolResult x) = truncateToolResult x := by
  rcases x with ⟨s, j⟩ | s
  · rcases hj : truncateJson j with e | j'
    · obtain rfl : e = () := rfl
      have e1 : truncateToolResult (.json s j) =
          if s.length > 5000 then
            .text (String.mk (s.data.take 5000) ++ "...[truncated]")
          else .json s j := by
        simp only [truncateToolResult]
        rw [hj]
      by_cases hlen : s.length > 5000
      · rw [e1, if_pos hlen]
        show ToolResult.text (truncateText _) = _
        rw [truncateText_fixed s hlen]
      · rw [e1, if_neg hlen]
        exact e1.trans (if_neg hlen)
    · have e1 : truncateToolResult (.json s j) =
          .json (jsStringify j') j' := by
        simp only [truncateToolResult]
        rw [hj]
      have e2 : truncateJson j' = .ok j' := by
        rcases j with _ | b | n | st | xs | fs
        · exact absurd hj (by simp [truncateJson])
        · simp only [truncateJson, Except.ok.injEq] at hj
          rw [← hj]
          rfl
        · simp only [truncateJson, Except.ok.injEq] at hj
          rw [← hj]
          rfl
        · simp only [truncateJson, Except.ok.injEq] at hj
          rw [← hj]
          rfl
        · simp only [truncateJson, Except.ok.injEq] at hj
          rw [← hj]
          rfl
        · simp only [truncStableInput, Bool.and_eq_true] at h
          simp only [truncateJson] at hj
          split at hj
          · exact absurd hj (by simp)
          · rename_i gs hgs
            simp only [Except.ok.injEq] at hj
            have hgg : truncFields gs = .ok gs :=
              truncFields_idem fs gs hgs h.1 h.2
            rw [← hj]
            simp only [truncateJson, hgg]
      rw [e1]
      simp only [truncateToolResult]
      rw [e2]
  · show ToolResult.text (truncateText (truncateText s)) =
      ToolResult.text (truncateText s)
    rw [truncateText_idem]

/-- Witness for `truncateToolResult_idempotent`: a structured result
with an oversized `tokens` array and a collapsible numeric `tvl_total`
series is stable under re-truncation. -/
theorem truncateToolResult_idempotent_witness :
    truncStableInput (.json
      (jsStringify (.vObj [("tvl_total",
        .vArr [.vObj [("totalLiquidityUSD", .vNum 7)]]),
        ("tokens", .vArr (List.replicate 12 (.vNum 1)))]))
      (.vObj [("tvl_total",
        .vArr [.vObj [("totalLiquidityUSD", .vNum 7)]]),
        ("tokens", .vArr (List.replicate 12 (.vNum 1)))])) = true ∧
    truncateToolResult (truncateToolResult (.json
      (jsStringify (.vObj [("tvl_total",
        .vArr [.vObj [("totalLiquidityUSD", .vNum 7)]]),
        ("tokens", .vArr (List.replicate 12 (.vNum 1)))]))
      (.vObj [("tvl_total",
        .vArr [.vObj [("totalLiquidityUSD", .vNum 7)]]),
        ("tokens", .vArr (List.replicate 12 (.vNum 1)))]))) =
    truncateToolResult (.json
      (jsStringify (.vObj [("tvl_total",
        .vArr [.vObj [("totalLiquidityUSD", .vNum 7)]]),
        ("tokens", .vArr (List.replicate 12 (.vNum 1)))]))
      (.vObj [("tvl_total",
        .vArr [.vObj [("totalLiquidityUSD", .vNum 7)]]),
        ("tokens", .vArr (List.replicate 12 (.vNum 1)))])) :=
  ⟨by decide,
   truncateToolResult_idempotent (.json
      (jsStringify (.vObj [("tvl_total",
        .vArr [.vObj [("totalLiquidityUSD", .vNum 7)]]),
        ("tokens", .vArr (List.replicate 12 (.vNum 1)))]))
      (.vObj [("tvl_total",
        .vArr [.vObj [("totalLiquidityUSD", .vNum 7)]]),
        ("tokens", .vArr (List.replicate 12 (.vNum 1)))])) (by decide)⟩

/-! ## The `_truncated` annotation (claim C6) -/

/-- **C6 (divergence).** On a structured result whose `tokens` array has
12 items, truncation keeps the first 10 items but annotates
`"Showing first 10 of 10 tokens"`: the count after "of" is read from the
array *after* it has been sliced, so the annotation never states the
original item count (the spec's "how many existed") — it always repeats
the cap. -/
theorem capArray_annotation_reads_sliced_length :
    truncateJson (.vObj [("tokens",
      .vArr [.vNum 1, .vNum 2, .vNum 3, .vNum 4, .vNum 5, .vNum 6,
        .vNum 7, .vNum 8, .vNum 9, .vNum 10, .vNum 11, .vNum 12])]) =
    .ok (.vObj [("tokens",
      .vArr [.vNum 1, .vNum 2, .vNum 3, .vNum 4, .vNum 5, .vNum 6,
        .vNum 7, .vNum 8, .vNum 9, .vNum 10]),
      ("_truncated", .vStr "Showing first 10 of 10 tokens")]) := by
  decide

/-! ## Dispatcher error handling (claim C9) -/

/-- An unknown tool name falls through the whole `switch`. -/
lemma dispatch_eq_none (env : ToolEnv) (tc : ToolCall)
    (h : tc.name ∉ knownToolNames) : dispatch env tc = none := by
  simp only [knownToolNames, List.mem_cons, List.not_mem_nil, or_false,
    not_or] at h
  obtain ⟨h1, h2, h3, h4, h5, h6, h7, h8⟩ := h
  simp [dispatch, h1, h2, h3, h4, h5, h6, h7, h8]

/-- **C9.** The dispatcher always returns a string and never raises: a
tool call whose name is not one of the eight known tool names returns
exactly `JSON.stringify({error: "Unknown tool: <name>"})`, and a
collaborator exception with message `m` is caught and returned as
exactly `JSON.stringify({error: "Tool execution failed: <m>"})`.
(Totality is inherent: `executeTool` is a total function into `String`.)
-/
theorem executeTool_never_raises (env : ToolEnv) (tc : ToolCall) :
    (tc.name ∉ knownToolNames →
      executeTool env tc =
        jsStringify (.vObj [("error",
          .vStr ("Unknown tool: " ++ tc.name))])) ∧
    (∀ m, dispatch env tc = some (.error m) →
      executeTool env tc =
        jsStringify (.vObj [("error",
          .vStr ("Tool execution failed: " ++ m))])) := by
  constructor
  · intro h
    unfold executeTool
    rw [dispatch_eq_none env tc h]
    rfl
  · intro m hm
    unfold executeTool
    rw [hm]
    rfl

/-- A tool environment whose SOL-balance collaborator throws. -/
def throwingEnv : ToolEnv :=
  { stubEnv with getSOLBalanceTool := fun _ => .error "boom" }

/-- Witness for `executeTool_never_raises`: the two error payloads as
literal strings. -/
theorem executeTool_never_raises_witness :
    executeTool throwingEnv
        { id := "1", name := "unknown_tool", arguments := [] } =
      "\x7b\"error\":\"Unknown tool: unknown_tool\"\x7d" ∧
    executeTool throwingEnv
        { id := "1", name := "get_sol_balance", arguments := [] } =
      "\x7b\"error\":\"Tool execution failed: boom\"\x7d" :=
  ⟨((executeTool_never_raises throwingEnv
      { id := "1", name := "unknown_tool", arguments := [] }).1
      (by decide)).trans (by decide),
   ((executeTool_never_raises throwingEnv
      { id := "1", name := "get_sol_balance", arguments := [] }).2 "boom"
      rfl).trans (by decide)⟩

/-! ## Streaming/buffered equivalence (claim C7) -/

/-- A client that requests one round of tool use and then answers
`"done"`, at zero cost. -/
def oneToolClient : Client :=
  { chat := fun msgs =>
      if msgs.length ≤ 2 then
        toolUseResponse ⟨"1", "get_sol_balance", []⟩
      else stopResponse "done"
    streamChat := none
    supportsStreaming := false
    estimateCost := fun _ => 0 }

/-- **C7 (counterexample).** When a response requests tool calls, the
stream yields a tool-progress chunk that the buffered return value never
contains, so concatenating all chunks of `sendMessageStream` does not
equal the value `sendMessage` returns from the same starting state. -/
theorem stream_concat_counterexample :
    (sendMessage oneToolClient stubEnv stubConfig (freshSession stubConfig)
      "hi").result = .ok "done" ∧
    String.join ((sendMessageStream oneToolClient stubEnv stubConfig
      (freshSession stubConfig) "hi").trace.map Prod.fst) ≠ "done" := by
  rw [sendMessage_admitted oneToolClient stubEnv stubConfig
      (freshSession stubConfig) "hi" (by decide)
      (by norm_num [oneToolClient, freshSession, stubConfig]),
    sendMessageStream_admitted oneToolClient stubEnv stubConfig
      (freshSession stubConfig) "hi" (by decide)
      (by norm_num [oneToolClient, freshSession, stubConfig])]
  decide

/-- **C7 (amended).** For every deterministic client that does not
support streaming and whose responses carry no tool calls,
concatenating all chunks yielded by a drained `sendMessageStream` equals
the string returned by `sendMessage` from an identical starting session
state. -/
theorem stream_concat_eq_sendMessage (client : Client) (env : ToolEnv)
    (cfg : SessionConfig) (s : ChatSession) (x : String) (r : String)
    (hnotc : ∀ msgs, (client.chat msgs).toolCalls = none)
    (hss : client.supportsStreaming = false)
    (hok : (sendMessage client env cfg s x).result = .ok r) :
    String.join ((sendMessageStream client env cfg s x).trace.map
      Prod.fst) = r := by
  obtain ⟨h1, h2⟩ := sendMessage_ok_admission client env cfg s x r hok
  rw [sendMessage_admitted client env cfg s x h1 h2] at hok
  rw [sendMessageStream_admitted client env cfg s x h1 h2]
  simp only at hok ⊢
  rw [toolLoop_none _ _ _ _ _ (hnotc _)] at hok
  rw [streamToolLoop_none _ _ _ _ _ (hnotc _)]
  rw [finalPhase_no_streaming client _ _ hss]
  simp only [Except.ok.injEq] at hok
  simpa [String.join] using hok

/-- Witness for `stream_concat_eq_sendMessage`: the stub run's single
chunk concatenates to the buffered reply `"ok"`. -/
theorem stream_concat_eq_sendMessage_witness :
    String.join ((sendMessageStream stubClient stubEnv stubConfig
      (freshSession stubConfig) "hi").trace.map Prod.fst) = "ok" :=
  stream_concat_eq_sendMessage stubClient stubEnv stubConfig
    (freshSession stubConfig) "hi" "ok" (fun _ => rfl) rfl
    (by rw [stubRun_sendMessage])

/-! ## Early stream abandonment (claim C8) -/

/-- **C8 (counterexample).** Stopping consumption before the stream is
drained does *not* leave the session as if the turn never happened: the
one-tool-round run yields two chunks, and already at the first chunk the
session differs from the starting session (the user message is appended
and `turn_count` incremented before the first yield). -/
theorem stream_abandon_counterexample :
    (sendMessageStream oneToolClient stubEnv stubConfig
      (freshSession stubConfig) "hi").trace.length = 2 ∧
    ((sendMessageStream oneToolClient stubEnv stubConfig
      (freshSession stubConfig) "hi").trace.map Prod.snd).head? ≠
      some (freshSession stubConfig) := by
  rw [sendMessageStream_admitted oneToolClient stubEnv stubConfig
      (freshSession stubConfig) "hi" (by decide)
      (by norm_num [oneToolClient, freshSession, stubConfig])]
  decide

/-- Every trace entry of the streaming tool loop extends the loop's
input history and is a prefix of the loop's output history. -/
lemma streamToolLoop_trace_entries (client : Client) (env : ToolEnv) :
    ∀ (fuel : Nat) (msgs : List Message) (resp : LLMResponse),
      ∀ p ∈ (streamToolLoop client env fuel msgs resp).2.2.2,
        (msgs <+: p.2) ∧
          p.2 <+: (streamToolLoop client env fuel msgs resp).1
  | 0, msgs, resp => by simp [streamToolLoop]
  | fuel + 1, msgs, resp => by
    intro p hp
    rcases h : resp.toolCalls with _ | tcs
    · rw [streamToolLoop_none client env _ _ _ h] at hp
      simp at hp
    · unfold streamToolLoop at hp ⊢
      rw [h] at hp ⊢
      simp only [List.mem_cons] at hp
      rcases hp with rfl | hp
      · exact ⟨List.prefix_refl _,
          (List.prefix_append _ _).trans
            (streamToolLoop_grows client env fuel _ _)⟩
      · have ih := streamToolLoop_trace_entries client env fuel
          (msgs ++ toolExchange env resp tcs)
          (client.chat (msgs ++ toolExchange env resp tcs)) p hp
        exact ⟨(List.prefix_append _ _).trans ih.1, ih.2⟩

/-- **C8 (amended).** A consumer abandoning the stream after consuming
some chunks leaves a session in which the cost update and the final
assistant message are absent — at every yield point `total_cost` is
unchanged and the recorded history is a prefix of the fully-drained
history minus its final assistant message — but the user message and
the `turn_count` increment are already recorded from the first chunk on
(together with any tool-exchange messages preceding the consumed
chunks): only the final assistant append and the cost update are
deferred to drain completion. -/
theorem stream_partial_consumption (client : Client) (env : ToolEnv)
    (cfg : SessionConfig) (s : ChatSession) (x : String) :
    ∀ p ∈ (sendMessageStream client env cfg s x).trace,
      p.2.totalCost = s.totalCost ∧
      p.2.turnCount = s.turnCount + 1 ∧
      (∃ rest, p.2.messages =
        s.messages ++ ({ role := Role.user, content := x } : Message)
          :: rest) ∧
      p.2.messages <+:
        (sendMessageStream client env cfg s x).finalSession.messages.dropLast
      := by
  by_cases h1 : cfg.maxTurns ≤ s.turnCount
  · intro p hp
    simp [sendMessageStream, h1] at hp
  by_cases h2 : cfg.maxCostPerSession <
      s.totalCost + client.estimateCost
        (s.messages ++ [{ role := .user, content := x }])
  · intro p hp
    simp [sendMessageStream, h1, h2] at hp
  rw [sendMessageStream_admitted client env cfg s x (not_le.mp h1)
    (not_lt.mp h2)]
  simp only
  intro p hp
  rw [List.mem_map] at hp
  obtain ⟨q, hq, rfl⟩ := hp
  rw [List.mem_append] at hq
  rw [dropLast_append_singleton]
  have hq2 : (s.messages ++ [{ role := Role.user, content := x }] <+: q.2)
      ∧ q.2 <+: (streamToolLoop client env 5
        (s.messages ++ [{ role := Role.user, content := x }])
        (client.chat
          (s.messages ++ [{ role := Role.user, content := x }]))).1 := by
    rcases hq with hq | hq
    · exact streamToolLoop_trace_entries client env 5 _ _ q hq
    · have hqeq : q.2 = (streamToolLoop client env 5
          (s.messages ++ [{ role := Role.user, content := x }])
          (client.chat
            (s.messages ++ [{ role := Role.user, content := x }]))).1 :=
        finalPhase_snd client _ _ q hq
      constructor
      · rw [hqeq]
        exact streamToolLoop_grows client env 5 _ _
      · rw [hqeq]
  obtain ⟨rest, hrest⟩ := hq2.1
  exact ⟨rfl, rfl, ⟨rest, by rw [← hrest, List.append_assoc]; rfl⟩, hq2.2⟩

/-- The session state at the single yield point of the stub streaming
run. -/
def stubYieldSession : ChatSession :=
  { messages := [{ role := Role.system, content := "sys" },
      { role := Role.user, content := "hi" }]
    turnCount := 1
    totalCost := 0 }

/-- Witness for `stream_partial_consumption`: in the stub run, the
session at the single yield point has the user message and the
incremented turn count but the starting total cost. -/
theorem stream_partial_consumption_witness :
    (("ok", stubYieldSession) : String × ChatSession).2.totalCost =
      (freshSession stubConfig).totalCost ∧
    (("ok", stubYieldSession) : String × ChatSession).2.turnCount =
      (freshSession stubConfig).turnCount + 1 ∧
    (∃ rest, (("ok", stubYieldSession) : String × ChatSession).2.messages =
      (freshSession stubConfig).messages ++
        ({ role := Role.user, content := "hi" } : Message) :: rest) ∧
    (("ok", stubYieldSession) : String × ChatSession).2.messages <+:
      (sendMessageStream stubClient stubEnv stubConfig
        (freshSession stubConfig) "hi").finalSession.messages.dropLast :=
  stream_partial_consumption stubClient stubEnv stubConfig
    (freshSession stubConfig) "hi" ("ok", stubYieldSession)
    (by rw [stubRun_sendMessageStream]; simp [stubYieldSession])

end Corvus
